import Mathlib

set_option maxHeartbeats 1000000

/-!
Verification of the CTMP proxy server (src/main.rs) against its design
specification.  The Rust program is shallowly embedded: bytes are `Nat`
values below 256, machine-integer arithmetic is `Nat` arithmetic with
explicit reduction modulo 2^32 where the source uses `u32`, the
`validate_checksum` folding loop is expressed with explicit fuel (the
accumulator itself bounds the iteration count, since each iteration
strictly decreases it), and the source-session loop of
`handle_source_client` is a fuel-indexed function over the incoming byte
stream together with the kind of event that ends the stream.
-/

/-- Parsed CTMP message header (`struct Header` in main.rs).  `magic` and
`options` are single bytes, `length`, `checksum` and `padding` are the
decoded big-endian 16-bit fields; all are modelled as `Nat`. -/
structure Header where
  magic : Nat
  options : Nat
  length : Nat
  checksum : Nat
  padding : Nat
deriving DecidableEq

/-- Header::from_bytes: decode the 8 fixed-position fields from an 8-byte
buffer; `u16::from_be_bytes [a, b]` is `a * 256 + b`. -/
def Header.from_bytes (bytes : List Nat) : Header :=
  { magic := bytes.getD 0 0
  , options := bytes.getD 1 0
  , length := (bytes.getD 2 0) * 256 + bytes.getD 3 0
  , checksum := (bytes.getD 4 0) * 256 + bytes.getD 5 0
  , padding := (bytes.getD 6 0) * 256 + bytes.getD 7 0 }

/-- Header::is_valid: the magic byte must be 0xCC (204) and the decoded
padding field must be zero. -/
def Header.is_valid (h : Header) : Bool :=
  h.magic == 204 && h.padding == 0

/-- Header::is_sensitive: options bit 6 (mask 0x40 = 64) is set. -/
def Header.is_sensitive (h : Header) : Bool :=
  Nat.land h.options 64 != 0

/-- Header::payload_length: the length field used as a byte count. -/
def Header.payload_length (h : Header) : Nat := h.length

/-- One iteration of the checksum folding loop of
Header::validate_checksum: `sum = (sum >> 16) + (sum & 0xFFFF)`. -/
def foldStep (s : Nat) : Nat := s / 65536 + s % 65536

/-- Fuel-indexed unfolding of the loop `while (sum >> 16) > 0`. -/
def foldAux : Nat → Nat → Nat
  | 0, s => s
  | fuel + 1, s => if 0 < s / 65536 then foldAux fuel (foldStep s) else s

/-- The folding loop of Header::validate_checksum.  The accumulator value
itself is enough fuel, because every executed iteration strictly
decreases the accumulator. -/
def fold16 (s : Nat) : Nat := foldAux s s

/-- The payload summation of Header::validate_checksum: add every
big-endian 16-bit word produced by `chunks_exact(2)`, then a final odd
trailing byte padded with a zero low byte; the accumulator is a `u32`,
so every addition is reduced modulo 2^32. -/
def sumBody : Nat → List Nat → Nat
  | acc, [] => acc
  | acc, [b] => (acc + b * 256) % 4294967296
  | acc, b0 :: b1 :: rest => sumBody ((acc + (b0 * 256 + b1)) % 4294967296) rest

/-- Header::validate_checksum: seed a `u32` accumulator with the
big-endian word (magic, options), the length field and the constant
0xCCCC (52428), add all payload words, fold to 16 bits, and compare the
one's complement (`!sum as u16`) with the stored checksum field. -/
def Header.validate_checksum (h : Header) (data : List Nat) : Bool :=
  (4294967295 -
      fold16 (sumBody
        ((((0 + (h.magic * 256 + h.options)) % 4294967296 + h.length) % 4294967296
            + 52428) % 4294967296) data)) % 65536
    == h.checksum

/-- Plain sum of the big-endian 16-bit payload words, pairing successive
bytes in order and padding an odd trailing byte with a zero low byte
(spec section 4.1 steps 2 and 3). -/
def wordSum : List Nat → Nat
  | [] => 0
  | [b] => b * 256
  | b0 :: b1 :: rest => (b0 * 256 + b1) + wordSum rest

/-- Modelled from the spec: the section 4.1 checksum algorithm, used both
as the sender-side computation (which has no counterpart under src/) and
as the specification-side description of verification.  The 32-bit sum
seeds with the (magic, options) word, the length field and 0xCCCC, adds
every payload word, is folded to 16 bits, and is complemented. -/
def specChecksum (magic options length : Nat) (payload : List Nat) : Nat :=
  65535 - fold16 ((magic * 256 + options + length + 52428 + wordSum payload) % 4294967296)

theorem foldAux_spec : ∀ fuel s : Nat, s ≤ fuel →
    ∃ n : Nat, foldAux fuel s = foldStep^[n] s ∧ foldStep^[n] s < 65536 := by
  intro fuel
  induction fuel with
  | zero =>
    intro s hs
    refine ⟨0, rfl, ?_⟩
    simp only [Function.iterate_zero, id_eq]
    omega
  | succ n ih =>
    intro s hs
    by_cases hbig : 0 < s / 65536
    · have hstep : foldStep s < s := by unfold foldStep; omega
      obtain ⟨m, hm1, hm2⟩ := ih (foldStep s) (by omega)
      refine ⟨m + 1, ?_, ?_⟩
      · rw [Function.iterate_succ_apply]
        simpa [foldAux, hbig] using hm1
      · rw [Function.iterate_succ_apply]
        exact hm2
    · refine ⟨0, ?_, ?_⟩
      · simp [foldAux, hbig]
      · simp only [Function.iterate_zero, id_eq]
        omega

theorem fold16_spec (s : Nat) :
    ∃ n : Nat, fold16 s = foldStep^[n] s ∧ foldStep^[n] s < 65536 :=
  foldAux_spec s s le_rfl

theorem fold16_lt (s : Nat) : fold16 s < 65536 := by
  obtain ⟨n, h1, h2⟩ := fold16_spec s
  rw [h1]; exact h2

theorem foldStep_modEq (s : Nat) : foldStep s ≡ s [MOD 65535] := by
  show foldStep s % 65535 = s % 65535
  unfold foldStep
  omega

theorem iterate_foldStep_modEq (n : Nat) : ∀ s : Nat, foldStep^[n] s ≡ s [MOD 65535] := by
  induction n with
  | zero => intro s; simp [Nat.ModEq.refl]
  | succ m ih =>
    intro s
    rw [Function.iterate_succ_apply]
    exact (ih (foldStep s)).trans (foldStep_modEq s)

theorem fold16_modEq (s : Nat) : fold16 s ≡ s [MOD 65535] := by
  obtain ⟨n, h1, _⟩ := fold16_spec s
  rw [h1]
  exact iterate_foldStep_modEq n s

theorem sumBody_eq : ∀ (p : List Nat) (x : Nat),
    sumBody (x % 4294967296) p = (x + wordSum p) % 4294967296
  | [], x => by simp [sumBody, wordSum]
  | [b], x => by
    simp only [sumBody, wordSum]
    omega
  | b0 :: b1 :: rest, x => by
    have ih := sumBody_eq rest (x + (b0 * 256 + b1))
    simp only [sumBody, wordSum]
    rw [show (x % 4294967296 + (b0 * 256 + b1)) % 4294967296
        = (x + (b0 * 256 + b1)) % 4294967296 from by omega, ih]
    ring_nf

/-- Core refinement fact: the source's validate_checksum accepts exactly
the checksum value described by the specification algorithm. -/
theorem validate_iff (h : Header) (data : List Nat) :
    h.validate_checksum data = true ↔
      h.checksum = specChecksum h.magic h.options h.length data := by
  unfold Header.validate_checksum specChecksum
  rw [show (((0 + (h.magic * 256 + h.options)) % 4294967296 + h.length) % 4294967296
        + 52428) % 4294967296
      = (h.magic * 256 + h.options + h.length + 52428) % 4294967296 from by omega]
  rw [sumBody_eq data (h.magic * 256 + h.options + h.length + 52428)]
  have hlt := fold16_lt ((h.magic * 256 + h.options + h.length + 52428 + wordSum data)
      % 4294967296)
  rw [beq_iff_eq]
  constructor
  · intro hv; omega
  · intro hv; omega

/-- C1: validate_checksum returns true exactly when the header's checksum
field equals the one's complement of the 16-bit fold of the 32-bit sum of
the (magic, options) big-endian word, the length field, the constant
0xCCCC, and every successive big-endian 16-bit payload word with an odd
trailing byte padded by a zero low byte; the fold repeatedly adds the
accumulator's high 16 bits to its low 16 bits until none remain. -/
theorem validate_checksum_iff_spec (h : Header) (data : List Nat) :
    h.validate_checksum data = true ↔
      h.checksum = specChecksum h.magic h.options h.length data :=
  validate_iff h data

/-- C10: the folding loop of validate_checksum terminates on every input:
finitely many iterations of the loop body reach a value with no bits
above bit 15, and fold16 (hence validate_checksum) computes exactly that
value. -/
theorem fold_loop_terminates (s : Nat) :
    ∃ n : Nat, fold16 s = foldStep^[n] s ∧ foldStep^[n] s < 65536 :=
  fold16_spec s

/-- C2: parsing an 8-byte buffer and checking structural validity
succeeds exactly when byte 0 is 0xCC and bytes 6 and 7 are both zero,
independently of the other bytes. -/
theorem from_bytes_is_valid_iff (b : List Nat) (hlen : b.length = 8)
    (hbytes : ∀ x ∈ b, x < 256) :
    (Header.from_bytes b).is_valid = true ↔
      b.getD 0 0 = 204 ∧ b.getD 6 0 = 0 ∧ b.getD 7 0 = 0 := by
  simp only [Header.is_valid, Header.from_bytes, Bool.and_eq_true, beq_iff_eq]
  omega

/-- Witness for C2 at a concrete valid header whose ignored fields are
nonzero. -/
theorem from_bytes_is_valid_iff_witness :
    (Header.from_bytes [204, 7, 1, 2, 3, 4, 0, 0]).is_valid = true :=
  (from_bytes_is_valid_iff [204, 7, 1, 2, 3, 4, 0, 0] (by decide)
    (by decide)).mpr (by decide)

theorem wordSum_set : ∀ (p : List Nat) (i c : Nat), i < p.length →
    wordSum (p.set i (p.getD i 0 + c))
      = wordSum p + c * (if i % 2 = 0 then 256 else 1)
  | [], i, c, h => absurd h (by simp)
  | [b], 0, c, h => by simp [wordSum]; ring
  | [b], i + 1, c, h => absurd h (by simp)
  | b0 :: b1 :: rest, 0, c, h => by
    cases rest with
    | nil => simp [wordSum]; ring
    | cons x xs => simp [wordSum]; ring
  | b0 :: b1 :: rest, 1, c, h => by
    cases rest with
    | nil => simp [wordSum]; ring
    | cons x xs => simp [wordSum]; ring
  | b0 :: b1 :: rest, i + 2, c, h => by
    have ih := wordSum_set rest i c (by simp at h; omega)
    simp only [List.set_cons_succ, List.getD_cons_succ, wordSum]
    rw [ih, show (i + 2) % 2 = i % 2 from Nat.add_mod_right i 2]
    ring

/-- Adding a value delta with 1 ≤ delta ≤ 32768 to the true (unreduced)
checksum accumulator always changes the folded 16-bit value, even across
a 32-bit wraparound. -/
theorem fold16_mod_ne (S delta : Nat) (h1 : 1 ≤ delta) (h2 : delta ≤ 32768) :
    fold16 (S % 4294967296) ≠ fold16 ((S + delta) % 4294967296) := by
  have hb : (S + delta) % 4294967296 = (S % 4294967296 + delta) % 4294967296 := by
    omega
  rw [hb]
  set a := S % 4294967296 with ha
  have halt : a < 4294967296 := Nat.mod_lt _ (by norm_num)
  by_cases hw : a + delta < 4294967296
  · rw [Nat.mod_eq_of_lt hw]
    intro heq
    have h3 := fold16_modEq a
    have h4 := fold16_modEq (a + delta)
    rw [heq] at h3
    have h5 : a ≡ a + delta [MOD 65535] := h3.symm.trans h4
    have h6 : a % 65535 = (a + delta) % 65535 := h5
    omega
  · have hb2 : (a + delta) % 4294967296 = a + delta - 4294967296 := by omega
    rw [hb2]
    by_cases hone : delta = 1
    · subst hone
      have haa : a = 4294967295 := by omega
      have hzz : a + 1 - 4294967296 = 0 := by omega
      rw [hzz, haa]
      decide
    · intro heq
      have h3 := fold16_modEq a
      have h4 := fold16_modEq (a + delta - 4294967296)
      rw [heq] at h3
      have h5 : a ≡ a + delta - 4294967296 [MOD 65535] := h3.symm.trans h4
      have h6 : a % 65535 = (a + delta - 4294967296) % 65535 := h5
      omega

/-- C3: placing the checksum computed by the section 4.1 algorithm in the
header's checksum field makes validate_checksum succeed on the same
fields and payload; and changing any single payload byte by exactly a
power of two below 2^8 (which covers every single-bit flip of a payload
byte, in either direction, because inequality is symmetric) changes the
computed checksum. -/
theorem checksum_roundtrip_bitflip (magic options length i k : Nat)
    (payload : List Nat) (hm : magic < 256) (ho : options < 256)
    (hl : length < 65536) (hk : k < 8) (hi : i < payload.length)
    (hb : payload.getD i 0 + 2 ^ k < 256) :
    Header.validate_checksum
        { magic := magic, options := options, length := length
        , checksum := specChecksum magic options length payload, padding := 0 }
        payload = true
    ∧ specChecksum magic options length payload
        ≠ specChecksum magic options length
            (payload.set i (payload.getD i 0 + 2 ^ k)) := by
  constructor
  · exact (validate_iff _ payload).mpr rfl
  · unfold specChecksum
    have hset := wordSum_set payload i (2 ^ k) hi
    rw [hset]
    set delta := 2 ^ k * (if i % 2 = 0 then 256 else 1) with hdelta
    have hdpos : 1 ≤ delta := by
      have : 0 < 2 ^ k := Nat.pos_pow_of_pos k (by norm_num)
      rw [hdelta]
      split <;> omega
    have hdle : delta ≤ 32768 := by
      have hk7 : 2 ^ k ≤ 128 := by
        calc 2 ^ k ≤ 2 ^ 7 := Nat.pow_le_pow_right (by norm_num) (by omega)
        _ = 128 := by norm_num
      rw [hdelta]
      split <;> omega
    have hne := fold16_mod_ne (magic * 256 + options + length + 52428 + wordSum payload)
      delta hdpos hdle
    have hlt1 := fold16_lt ((magic * 256 + options + length + 52428 + wordSum payload)
      % 4294967296)
    have hlt2 := fold16_lt ((magic * 256 + options + length + 52428 + wordSum payload
      + delta) % 4294967296)
    rw [show magic * 256 + options + length + 52428 + (wordSum payload + delta)
        = magic * 256 + options + length + 52428 + wordSum payload + delta from by ring]
    omega

/-- Witness for C3: concrete sensitive header fields with payload [1, 2, 3]
and a flip of bit 0 of byte 0. -/
theorem checksum_roundtrip_bitflip_witness :
    Header.validate_checksum
        { magic := 204, options := 64, length := 3
        , checksum := specChecksum 204 64 3 [1, 2, 3], padding := 0 }
        [1, 2, 3] = true
    ∧ specChecksum 204 64 3 [1, 2, 3]
        ≠ specChecksum 204 64 3 ([1, 2, 3].set 0 ([1, 2, 3].getD 0 0 + 2 ^ 0)) :=
  checksum_roundtrip_bitflip 204 64 3 0 0 [1, 2, 3] (by decide) (by decide)
    (by decide) (by decide) (by decide) (by decide)

/-- Kind of event that ends the incoming source byte stream: a clean
close by the peer (read_exact then reports UnexpectedEof), the 10-second
read timeout (WouldBlock), or any other I/O error. -/
inductive ReadEnd where
  | eof : ReadEnd
  | timeout : ReadEnd
  | ioErr : ReadEnd
deriving DecidableEq

/-- How a source session terminates: the UnexpectedEof arm of
handle_source_client logs a graceful disconnect, every other way out of
the loop is a fault. -/
inductive CloseKind where
  | graceful : CloseKind
  | fault : CloseKind
deriving DecidableEq

/-- Observable outcome of one source session: the messages handed to the
destination broadcast in order, how the session closed, and how many
bytes were consumed from the stream by successful reads before the
closing event. -/
structure SessionResult where
  msgs : List (List Nat)
  close : CloseKind
  consumed : Nat
deriving DecidableEq

/-- Outcome when the 8-byte header read fails because the stream ran
out: UnexpectedEof is logged as a graceful disconnect, WouldBlock
(timeout) and every other error break the loop as a fault. -/
def endResult (bytes : List Nat) (e : ReadEnd) : SessionResult :=
  { msgs := []
  , close := match e with
      | ReadEnd.eof => CloseKind.graceful
      | ReadEnd.timeout => CloseKind.fault
      | ReadEnd.ioErr => CloseKind.fault
  , consumed := bytes.length }

/-- Fuel-indexed embedding of the message loop of handle_source_client.
Each iteration reads an 8-byte header (failing into `endResult` when the
stream is exhausted), checks structural validity before touching the
payload (breaking with a fault and exactly 8 consumed bytes otherwise),
reads the payload (breaking with a fault if the stream ends first),
silently drops a sensitive frame whose checksum fails, and otherwise
records the wire-exact concatenation of header and payload as a
broadcast message.  One unit of fuel per frame; the stream length is
always sufficient fuel because every frame consumes at least 8 bytes. -/
def runSessionAux : Nat → List Nat → ReadEnd → SessionResult
  | 0, bytes, e => endResult bytes e
  | fuel + 1, bytes, e =>
    if 8 ≤ bytes.length then
      if (Header.from_bytes (bytes.take 8)).is_valid then
        if (Header.from_bytes (bytes.take 8)).payload_length ≤ (bytes.drop 8).length then
          if (Header.from_bytes (bytes.take 8)).is_sensitive
              && ! (Header.from_bytes (bytes.take 8)).validate_checksum
                  ((bytes.drop 8).take (Header.from_bytes (bytes.take 8)).payload_length) then
            { msgs := (runSessionAux fuel
                ((bytes.drop 8).drop (Header.from_bytes (bytes.take 8)).payload_length) e).msgs
            , close := (runSessionAux fuel
                ((bytes.drop 8).drop (Header.from_bytes (bytes.take 8)).payload_length) e).close
            , consumed := 8 + (Header.from_bytes (bytes.take 8)).payload_length
                + (runSessionAux fuel
                    ((bytes.drop 8).drop (Header.from_bytes (bytes.take 8)).payload_length) e).consumed }
          else
            { msgs := (bytes.take 8
                  ++ (bytes.drop 8).take (Header.from_bytes (bytes.take 8)).payload_length)
                :: (runSessionAux fuel
                    ((bytes.drop 8).drop (Header.from_bytes (bytes.take 8)).payload_length) e).msgs
            , close := (runSessionAux fuel
                ((bytes.drop 8).drop (Header.from_bytes (bytes.take 8)).payload_length) e).close
            , consumed := 8 + (Header.from_bytes (bytes.take 8)).payload_length
                + (runSessionAux fuel
                    ((bytes.drop 8).drop (Header.from_bytes (bytes.take 8)).payload_length) e).consumed }
        else { msgs := [], close := CloseKind.fault, consumed := bytes.length }
      else { msgs := [], close := CloseKind.fault, consumed := 8 }
    else endResult bytes e

/-- One source session over a complete stream: the stream length is
enough fuel since every processed frame consumes at least 8 bytes. -/
def runSession (bytes : List Nat) (e : ReadEnd) : SessionResult :=
  runSessionAux bytes.length bytes e

theorem runSessionAux_congr : ∀ (f1 f2 : Nat) (bytes : List Nat) (e : ReadEnd),
    bytes.length ≤ f1 → bytes.length ≤ f2 →
    runSessionAux f1 bytes e = runSessionAux f2 bytes e := by
  intro f1
  induction f1 with
  | zero =>
    intro f2 bytes e h1 h2
    have hb : bytes = [] := List.length_eq_zero.mp (by omega)
    subst hb
    cases f2 with
    | zero => rfl
    | succ m => simp [runSessionAux]
  | succ n ih =>
    intro f2 bytes e h1 h2
    cases f2 with
    | zero =>
      have hb : bytes = [] := List.length_eq_zero.mp (by omega)
      subst hb
      simp [runSessionAux]
    | succ m =>
      simp only [runSessionAux]
      by_cases h8 : 8 ≤ bytes.length
      · rw [if_pos h8, if_pos h8]
        by_cases hv : (Header.from_bytes (bytes.take 8)).is_valid = true
        · rw [if_pos hv, if_pos hv]
          by_cases hp : (Header.from_bytes (bytes.take 8)).payload_length
              ≤ (bytes.drop 8).length
          · rw [if_pos hp, if_pos hp]
            have hlen : ((bytes.drop 8).drop
                (Header.from_bytes (bytes.take 8)).payload_length).length ≤ n := by
              simp only [List.length_drop]
              omega
            have hlen2 : ((bytes.drop 8).drop
                (Header.from_bytes (bytes.take 8)).payload_length).length ≤ m := by
              simp only [List.length_drop]
              omega
            rw [ih m ((bytes.drop 8).drop
                (Header.from_bytes (bytes.take 8)).payload_length) e hlen hlen2]
          · rw [if_neg hp, if_neg hp]
        · rw [if_neg hv, if_neg hv]
      · rw [if_neg h8, if_neg h8]

/-- Unfolding a session on a stream that starts with a complete
structurally valid frame: the frame is either silently dropped (sensitive
with a bad checksum) or forwarded as the wire-exact concatenation of its
header and payload bytes, and the session continues on the rest. -/
theorem runSession_step (hb p rest : List Nat) (e : ReadEnd)
    (hlen : hb.length = 8)
    (hv : (Header.from_bytes hb).is_valid = true)
    (hp : p.length = (Header.from_bytes hb).payload_length) :
    runSession (hb ++ (p ++ rest)) e =
      if (Header.from_bytes hb).is_sensitive
          && ! (Header.from_bytes hb).validate_checksum p then
        { msgs := (runSession rest e).msgs
        , close := (runSession rest e).close
        , consumed := 8 + p.length + (runSession rest e).consumed }
      else
        { msgs := (hb ++ p) :: (runSession rest e).msgs
        , close := (runSession rest e).close
        , consumed := 8 + p.length + (runSession rest e).consumed } := by
  have htot : (hb ++ (p ++ rest)).length = 8 + (p.length + rest.length) := by
    simp [hlen]
  unfold runSession
  rw [runSessionAux_congr (hb ++ (p ++ rest)).length (7 + (p.length + rest.length) + 1)
    (hb ++ (p ++ rest)) e le_rfl (by rw [htot]; omega)]
  simp only [runSessionAux]
  rw [if_pos (by rw [htot]; omega : 8 ≤ (hb ++ (p ++ rest)).length)]
  rw [List.take_left' hlen, List.drop_left' hlen]
  rw [if_pos hv]
  rw [← hp]
  rw [List.take_left' rfl, List.drop_left' rfl]
  rw [if_pos (by simp only [List.length_append]; omega : p.length ≤ (p ++ rest).length)]
  rw [runSessionAux_congr (7 + (p.length + rest.length)) rest.length rest e
    (by omega) le_rfl]

/-- A session whose stream cannot supply the 8 header bytes ends with
endResult: graceful exactly on a clean end of stream. -/
theorem runSession_end (bytes : List Nat) (e : ReadEnd) (h : bytes.length < 8) :
    runSession bytes e = endResult bytes e := by
  unfold runSession
  cases hn : bytes.length with
  | zero => rfl
  | succ m =>
    simp only [runSessionAux]
    rw [if_neg (by omega)]

/-- A structurally invalid header breaks the session immediately: no
message, a fault close, and exactly the 8 header bytes consumed. -/
theorem runSession_invalid (bytes : List Nat) (e : ReadEnd) (h8 : 8 ≤ bytes.length)
    (hv : (Header.from_bytes (bytes.take 8)).is_valid = false) :
    runSession bytes e = { msgs := [], close := CloseKind.fault, consumed := 8 } := by
  unfold runSession
  obtain ⟨m, hm⟩ : ∃ m, bytes.length = m + 1 := ⟨bytes.length - 1, by omega⟩
  rw [hm]
  simp only [runSessionAux]
  rw [if_pos (by omega), if_neg (by simp [hv])]

/-- C7: a frame whose 8-byte header is structurally invalid closes the
source connection with a fault, with exactly the 8 header bytes and no
payload bytes consumed from the stream, whatever follows the header and
however the stream would later end; the validity check thus happens
before any payload read. -/
theorem invalid_header_faults_before_payload (bytes : List Nat) (e : ReadEnd)
    (h8 : 8 ≤ bytes.length)
    (hv : (Header.from_bytes (bytes.take 8)).is_valid = false) :
    runSession bytes e = { msgs := [], close := CloseKind.fault, consumed := 8 } :=
  runSession_invalid bytes e h8 hv

/-- Witness for C7: a bad magic byte followed by two never-read payload
bytes. -/
theorem invalid_header_faults_before_payload_witness :
    runSession [0, 1, 2, 3, 4, 5, 6, 7, 9, 9] ReadEnd.eof
      = { msgs := [], close := CloseKind.fault, consumed := 8 } :=
  invalid_header_faults_before_payload [0, 1, 2, 3, 4, 5, 6, 7, 9, 9] ReadEnd.eof
    (by decide) (by decide)

/-- Counterexample for C8 as stated: a stream that ends mid-header with
partial bytes already received is NOT a fault close; read_exact reports
UnexpectedEof for a partial header exactly as for a clean close, and the
UnexpectedEof arm logs a graceful disconnect. -/
theorem partial_header_eof_not_fault :
    (runSession [204, 64, 0] ReadEnd.eof).close ≠ CloseKind.fault := by decide

/-- C8 (amended): in AwaitingHeader, end-of-stream before the 8 header
bytes are complete results in GracefulClose whether or not partial bytes
were received, while a timeout or any other read failure results in
FaultClose; nothing is delivered. -/
theorem header_read_failure_close_kinds (bytes : List Nat) (e : ReadEnd)
    (h : bytes.length < 8) :
    ((runSession bytes e).close = CloseKind.graceful ↔ e = ReadEnd.eof)
    ∧ (runSession bytes e).msgs = [] := by
  rw [runSession_end bytes e h]
  cases e <;> simp [endResult]

/-- Witness for C8's amended statement at a concrete partial header. -/
theorem header_read_failure_close_kinds_witness :
    ((runSession [204, 0, 0] ReadEnd.eof).close = CloseKind.graceful
      ↔ ReadEnd.eof = ReadEnd.eof)
    ∧ (runSession [204, 0, 0] ReadEnd.eof).msgs = [] :=
  header_read_failure_close_kinds [204, 0, 0] ReadEnd.eof (by decide)

/-- C4: a structurally valid sensitive frame that fails checksum
verification is discarded without being broadcast and the session
returns to awaiting the next header; a following valid non-sensitive
frame is delivered, so exactly one message reaches the destinations and
the session then closes gracefully at end of stream. -/
theorem bad_checksum_frame_dropped (hb1 p1 hb2 p2 : List Nat)
    (h1len : hb1.length = 8)
    (h1v : (Header.from_bytes hb1).is_valid = true)
    (h1s : (Header.from_bytes hb1).is_sensitive = true)
    (h1p : p1.length = (Header.from_bytes hb1).payload_length)
    (h1c : (Header.from_bytes hb1).validate_checksum p1 = false)
    (h2len : hb2.length = 8)
    (h2v : (Header.from_bytes hb2).is_valid = true)
    (h2s : (Header.from_bytes hb2).is_sensitive = false)
    (h2p : p2.length = (Header.from_bytes hb2).payload_length) :
    (runSession (hb1 ++ (p1 ++ (hb2 ++ p2))) ReadEnd.eof).msgs = [hb2 ++ p2]
    ∧ (runSession (hb1 ++ (p1 ++ (hb2 ++ p2))) ReadEnd.eof).close
        = CloseKind.graceful := by
  have hstep2 := runSession_step hb2 p2 [] ReadEnd.eof h2len h2v h2p
  rw [if_neg (by rw [h2s]; simp),
    show hb2 ++ (p2 ++ []) = hb2 ++ p2 from by simp] at hstep2
  have hstep1 := runSession_step hb1 p1 (hb2 ++ p2) ReadEnd.eof h1len h1v h1p
  rw [if_pos (by rw [h1s, h1c]; rfl)] at hstep1
  rw [hstep1]
  constructor
  · show (runSession (hb2 ++ p2) ReadEnd.eof).msgs = [hb2 ++ p2]
    rw [hstep2]
    rfl
  · show (runSession (hb2 ++ p2) ReadEnd.eof).close = CloseKind.graceful
    rw [hstep2]
    rfl

/-- Witness for C4: a sensitive frame (options 0x40, length 1, stored
checksum 0, which is wrong) followed by a valid non-sensitive empty
frame; only the second frame is delivered. -/
theorem bad_checksum_frame_dropped_witness :
    (runSession ([204, 64, 0, 1, 0, 0, 0, 0] ++ ([0] ++ ([204, 0, 0, 0, 0, 0, 0, 0] ++ [])))
        ReadEnd.eof).msgs = [[204, 0, 0, 0, 0, 0, 0, 0] ++ []]
    ∧ (runSession ([204, 64, 0, 1, 0, 0, 0, 0] ++ ([0] ++ ([204, 0, 0, 0, 0, 0, 0, 0] ++ [])))
        ReadEnd.eof).close = CloseKind.graceful :=
  bad_checksum_frame_dropped [204, 64, 0, 1, 0, 0, 0, 0] [0] [204, 0, 0, 0, 0, 0, 0, 0] []
    (by decide) (by decide) (by decide) (by decide) (by decide)
    (by decide) (by decide) (by decide) (by decide)

/-- C9: every forwarded message is the wire-exact concatenation of the 8
header bytes as read from the source and the payload bytes; the session
then continues on the remaining stream. -/
theorem forwarded_message_wire_exact (hb p rest : List Nat) (e : ReadEnd)
    (hlen : hb.length = 8)
    (hv : (Header.from_bytes hb).is_valid = true)
    (hp : p.length = (Header.from_bytes hb).payload_length)
    (hok : ((Header.from_bytes hb).is_sensitive
        && ! (Header.from_bytes hb).validate_checksum p) = false) :
    (runSession (hb ++ (p ++ rest)) e).msgs = (hb ++ p) :: (runSession rest e).msgs := by
  rw [runSession_step hb p rest e hlen hv hp, if_neg (by simp [hok])]

/-- Witness for C9: header CC 00 00 05 00 00 00 00 with payload "hello"
(bytes 104 101 108 108 111), delivered verbatim as one 13-byte
message. -/
theorem forwarded_message_wire_exact_witness :
    (runSession ([204, 0, 0, 5, 0, 0, 0, 0] ++ ([104, 101, 108, 108, 111] ++ []))
        ReadEnd.eof).msgs
      = ([204, 0, 0, 5, 0, 0, 0, 0] ++ [104, 101, 108, 108, 111])
        :: (runSession [] ReadEnd.eof).msgs :=
  forwarded_message_wire_exact [204, 0, 0, 5, 0, 0, 0, 0] [104, 101, 108, 108, 111] []
    ReadEnd.eof (by decide) (by decide) (by decide) (by decide)

/-- Admission control of the destination acceptor thread: under the lock,
a new connection is rejected when the registry already holds
MAX_DESTINATIONS (100) entries, and appended otherwise.  Destinations
are modelled by identifiers. -/
def register (dests : List Nat) (c : Nat) : List Nat × Bool :=
  if 100 ≤ dests.length then (dests, false) else (dests ++ [c], true)

/-- One broadcast over the registry (the retain_mut loop): keep, in
order, exactly the destinations whose write_all succeeds (`ok`). -/
def broadcastRound (ok : Nat → Bool) (dests : List Nat) : List Nat :=
  dests.filter ok

/-- A registry operation: either the acceptor registering a connection or
a session broadcasting a message whose per-destination write outcomes
are given by `ok`. -/
inductive RegOp where
  | reg : Nat → RegOp
  | bcast : (Nat → Bool) → RegOp

/-- Effect of one registry operation on the registered destinations. -/
def applyOp (dests : List Nat) : RegOp → List Nat
  | RegOp.reg c => (register dests c).1
  | RegOp.bcast ok => broadcastRound ok dests

/-- Effect of a sequence of register/broadcast operations. -/
def applyOps (dests : List Nat) : List RegOp → List Nat
  | [] => dests
  | op :: ops => applyOps (applyOp dests op) ops

/-- Registry contents after `i` broadcasts, where `ok i d` says whether
the round-i write to destination `d` succeeds. -/
def regState (ok : Nat → Nat → Bool) (init : List Nat) : Nat → List Nat
  | 0 => init
  | i + 1 => broadcastRound (ok i) (regState ok init i)

theorem applyOps_le : ∀ (ops : List RegOp) (d : List Nat), d.length ≤ 100 →
    (applyOps d ops).length ≤ 100
  | [], d, hd => hd
  | RegOp.reg c :: ops, d, hd => by
    refine applyOps_le ops _ ?_
    simp only [applyOp, register]
    by_cases hc : 100 ≤ d.length
    · rw [if_pos hc]; exact hd
    · rw [if_neg hc]; simp; omega
  | RegOp.bcast ok :: ops, d, hd => by
    refine applyOps_le ops _ ?_
    simp only [applyOp, broadcastRound]
    exact le_trans (List.length_filter_le ok d) hd

/-- C5: starting from the empty registry, no sequence of register and
broadcast operations ever leaves more than 100 destinations registered;
a registration with fewer than 100 current entries appends the new
connection and succeeds, and a registration at or above 100 entries is
rejected and leaves the registry exactly as it was. -/
theorem registry_capacity (ops : List RegOp) (d : List Nat) (c : Nat) :
    (applyOps [] ops).length ≤ 100
    ∧ (d.length < 100 → register d c = (d ++ [c], true))
    ∧ (100 ≤ d.length → register d c = (d, false)) := by
  refine ⟨applyOps_le ops [] (by simp), fun hlt => ?_, fun hge => ?_⟩
  · unfold register
    rw [if_neg (by omega)]
  · unfold register
    rw [if_pos hge]

/-- Witness for C5: one registration on the empty registry, one
registration below capacity, and one rejected registration at
capacity. -/
theorem registry_capacity_witness :
    (applyOps [] [RegOp.reg 5]).length ≤ 100
    ∧ register [] 7 = ([] ++ [7], true)
    ∧ register (List.replicate 100 0) 7 = (List.replicate 100 0, false) :=
  ⟨(registry_capacity [RegOp.reg 5] [] 7).1,
   (registry_capacity [RegOp.reg 5] [] 7).2.1 (by decide),
   (registry_capacity [RegOp.reg 5] (List.replicate 100 0) 7).2.2 (by decide)⟩

theorem regState_not_mem_mono (ok : Nat → Nat → Bool) (init : List Nat)
    (m d : Nat) (hd : d ∉ regState ok init m) :
    ∀ k, d ∉ regState ok init (m + k) := by
  intro k
  induction k with
  | zero => exact hd
  | succ n ihn =>
    intro hmem
    have hmem2 : d ∈ List.filter (ok (m + n)) (regState ok init (m + n)) := hmem
    exact ihn (List.mem_filter.mp hmem2).1

/-- C6: during the broadcast of round i, every destination present at the
start either has the message written to it successfully or is removed
from the registry by that same broadcast; and a destination whose write
failed at round i is absent from the registry at every later round, so
it never receives any subsequent message. -/
theorem broadcast_prune_permanent (ok : Nat → Nat → Bool) (init : List Nat)
    (i d : Nat) (hmem : d ∈ regState ok init i) :
    (ok i d = true ∨ d ∉ regState ok init (i + 1))
    ∧ (ok i d = false → ∀ j, i < j → d ∉ regState ok init j) := by
  have hbase : ok i d = false → d ∉ regState ok init (i + 1) := by
    intro hok hmem2
    have hmem3 : d ∈ List.filter (ok i) (regState ok init i) := hmem2
    have := (List.mem_filter.mp hmem3).2
    rw [hok] at this
    exact Bool.false_ne_true this
  constructor
  · by_cases hok : ok i d = true
    · exact Or.inl hok
    · exact Or.inr (hbase (by revert hok; cases ok i d <;> simp))
  · intro hok j hij
    have hmono := regState_not_mem_mono ok init (i + 1) d (hbase hok) (j - (i + 1))
    rw [show i + 1 + (j - (i + 1)) = j from by omega] at hmono
    exact hmono

/-- Broadcast-failure oracle for the C6 witness: only destination 2 ever
accepts a write. -/
def okW (i d : Nat) : Bool := d == 2

/-- Witness for C6: destination 1 fails the round-0 write and is gone
from the registry by round 3. -/
theorem broadcast_prune_permanent_witness : 1 ∉ regState okW [1, 2] 3 :=
  (broadcast_prune_permanent okW [1, 2] 0 1 (by decide)).2 (by decide) 3 (by decide)
